import Mathlib

/-!
Verification development for the valutatrade_hub rate cache.

Shallow embedding of the rate-cache core of the repository:
`parser_service/storage.py` (RatesStorage), `parser_service/updater.py`
(RatesUpdater), `parser_service/api_clients.py` (ExchangeRateApiClient)
and `core/usecases.py` (WalletApp.get_rate, WalletApp.get_rate_detailed).

Modelling conventions:
- JSON values are the inductive `Json`; Python floats are embedded as `Rat`
  (the claims are about exact values such as r, 1/r and 0, never about
  floating-point rounding).
- Python dictionaries are association lists keyed by `String`; insertion
  order and first-match lookup reproduce dict semantics.
- A fallible Python function becomes a total Lean function returning
  `Except`; each raised exception class is a constructor of `RateError`.
- Timestamps are compared as strings exactly as the source does; the
  wall clock and `datetime.fromisoformat` are passed in as explicit
  parameters (`now`, `ttl`, `parseIso`).
-/

namespace ValutaTradeHub

/-- Association-list lookup, modelling Python `dict.get(k)`: the first
binding of the key wins. -/
def lookupKey {α : Type} : List (String × α) → String → Option α
  | [], _ => none
  | p :: ps, k => if p.1 == k then some p.2 else lookupKey ps k

/-- Association-list update, modelling Python `d[k] = v`: replaces the
binding in place when the key is present, appends otherwise. -/
def setKey {α : Type} : List (String × α) → String → α → List (String × α)
  | [], k, v => [(k, v)]
  | p :: ps, k, v => if p.1 == k then (k, v) :: ps else p :: setKey ps k v

/-- JSON values as read from and written to the cache files. -/
inductive Json where
  | null
  | bool (b : Bool)
  | num (q : Rat)
  | str (s : String)
  | arr (elems : List Json)
  | obj (fields : List (String × Json))
deriving Repr, BEq

/-- Python truthiness of a JSON value (`if x:`): None, False, 0, empty
string, empty list and empty dict are falsy. -/
def Json.truthy : Json → Bool
  | .null => false
  | .bool b => b
  | .num q => q != 0
  | .str s => s != ""
  | .arr elems => !elems.isEmpty
  | .obj fields => !fields.isEmpty

/-- Python `isinstance(x, dict)`. -/
def Json.isObj : Json → Bool
  | .obj _ => true
  | _ => false

/-- Python `x.get(k)` on a JSON value: field lookup on a dict, `None`
(here `none`) on everything else. -/
def Json.get : Json → String → Option Json
  | .obj fields, k => lookupKey fields k
  | _, _ => none

/-- State of the rates.json file on disk: absent, unparseable (which
includes the empty file, since `json.loads` raises JSONDecodeError on
it), or parsed JSON content. -/
inductive FileState where
  | missing
  | corrupt
  | parsed (j : Json)

/-- The empty snapshot dict produced by RatesStorage.load on a missing
or corrupt file. -/
def emptySnapshotJson : Json :=
  .obj [("pairs", .obj []), ("last_refresh", .null)]

/-- RatesStorage.load (storage.py lines 23-42): returns the raw parsed
dict, substituting the empty snapshot for a missing file, a corrupt
file or non-dict content, defaulting a falsy or non-dict pairs field to
the empty dict, and passing last_refresh through. The Python function
never raises: every raised decode error is caught, which this total
function models. -/
def load : FileState → Json
  | .missing => emptySnapshotJson
  | .corrupt => emptySnapshotJson
  | .parsed data =>
    if !data.isObj then emptySnapshotJson
    else
      let pairs0 := (data.get "pairs").getD .null
      let pairs1 := if pairs0.truthy then pairs0 else .obj []
      let pairs2 := if pairs1.isObj then pairs1 else .obj []
      .obj [("pairs", pairs2), ("last_refresh", (data.get "last_refresh").getD .null)]

/-- RatesStorage.save (storage.py lines 44-57): the JSON object actually
written to rates.json (the temp-file-and-rename mechanics carry no
semantic content). A non-dict pairs field is replaced by the empty
dict; last_refresh is passed through, `None` when absent. -/
def save (data : Json) : Json :=
  let p := (data.get "pairs").getD .null
  .obj [("pairs", if p.isObj then p else .obj []),
        ("last_refresh", (data.get "last_refresh").getD .null)]

/-- Python str.upper() at the character level (currency codes are ASCII). -/
def strUpper (s : String) : String := ⟨s.data.map Char.toUpper⟩

/-- Python str.lower() at the character level. -/
def strLower (s : String) : String := ⟨s.data.map Char.toLower⟩

/-- Python str.strip() at the character level: drops leading and
trailing whitespace. -/
def strStrip (s : String) : String :=
  ⟨((s.data.dropWhile Char.isWhitespace).reverse.dropWhile Char.isWhitespace).reverse⟩

/-- Python lexicographic string comparison `b < a` (used as `a > b` in
the source), on the underlying code-point lists. -/
def strGt (a b : String) : Bool := decide (b.data < a.data)

/-- The TTL staleness check inside WalletApp.get_rate (usecases.py lines
159-173), deciding whether the stale-cache warning is logged. Note the
source reads the key "last_update", not "last_refresh". `parseIso`
models `datetime.fromisoformat` (returning seconds, `none` on a parse
failure), `now` the current time in seconds and `ttl` RATES_TTL_SECONDS;
`fromisoformat` applied to a non-string raises TypeError, which the
source catches into `needs_update = True`. -/
def needsUpdate (parseIso : String → Option Int) (now ttl : Int) (ratesData : Json) : Bool :=
  let lastUpdate := (ratesData.get "last_update").getD .null
  if lastUpdate.truthy then
    match lastUpdate with
    | .str s =>
      match parseIso s with
      | some t => now - t > ttl
      | none => true
    | _ => true
  else true

/-- Whether the stale-cache warning block of WalletApp.get_rate raises
(usecases.py lines 175-184): when last_update is truthy but
datetime.fromisoformat rejected it (an unparseable string, caught as
ValueError, or any non-string, caught as TypeError), age_seconds was
never assigned, so evaluating the warning f-string raises
UnboundLocalError, which `except Exception` converts into
ApiRequestError. In every such case needs_update is also true, so the
block is reached. -/
def staleWarnRaises (parseIso : String → Option Int) (ratesData : Json) : Bool :=
  let lastUpdate := (ratesData.get "last_update").getD .null
  lastUpdate.truthy &&
    (match lastUpdate with
     | .str s => (parseIso s).isNone
     | _ => true)

/-- normalize_currency (usecases.py line 21): `(code or "").strip().upper()`. -/
def normalize_currency (code : String) : String := strUpper (strStrip code)

/-- The registered currency codes, the keys of `_CURRENCIES` in
core/currencies.py lines 75-85; get_currency raises
CurrencyNotFoundError exactly on codes outside this list. -/
def currencyCodes : List String := ["USD", "EUR", "GBP", "RUB", "BTC", "ETH", "SOL"]

/-- The exceptions the rate lookup can raise, one constructor per
exception class of the source, each carrying the pair or code its
message names: currencyNotFound is CurrencyNotFoundError (raised by
get_currency), rateUnavailable is the ApiRequestError whose message
says the pair was not found in the cache, zeroInverse is the ValueError
raised by get_rate when the stored inverse rate is zero, updateFailed
is the ApiRequestError raised at usecases.py line 184 when logging the
stale-cache warning itself raises, badRateValue models a float()
conversion failure on a malformed rate value. -/
inductive RateError where
  | currencyNotFound (code : String)
  | rateUnavailable (pair : String)
  | zeroInverse (pair : String)
  | updateFailed
  | badRateValue
deriving Repr, DecidableEq

/-- Python float(x) on a JSON value: numbers and booleans convert (the
rate values this system writes are JSON numbers); other shapes would
raise, modelled as `none`. -/
def Json.toFloat : Json → Option Rat
  | .num q => some q
  | .bool b => some (if b then 1 else 0)
  | _ => none

/-- WalletApp.get_rate (usecases.py lines 139-211). `ratesData` is the
raw JSON loaded from rates.json by `_load_rates` (the empty dict when
the file is missing or unreadable). The result pairs the returned rate
with the value of the staleness check (lines 162-184); on the stale
path the source logs a warning, except when the warning f-string
itself raises because last_update is truthy but unparseable, in which
case get_rate raises ApiRequestError (`updateFailed`). The check and
its raise are skipped by the early return for equal currencies. The
function performs no network call or cache write on any path. -/
def get_rate (parseIso : String → Option Int) (now ttl : Int) (ratesData : Json)
    (currencyCode baseCurrency : String) : Except RateError (Rat × Bool) :=
  let currency := normalize_currency currencyCode
  let base := normalize_currency baseCurrency
  if !currencyCodes.contains currency then .error (.currencyNotFound currency)
  else if !currencyCodes.contains base then .error (.currencyNotFound base)
  else if currency == base then .ok (1, false)
  else
    let warned := needsUpdate parseIso now ttl ratesData
    if warned && staleWarnRaises parseIso ratesData then .error .updateFailed
    else
      let isLegacy := ratesData.isObj && (ratesData.get "pairs").isSome
      let pairs := if isLegacy then (ratesData.get "pairs").getD (.obj []) else ratesData
      if !pairs.isObj then .error (.rateUnavailable (currency ++ "_" ++ base))
      else
        let pairDirect := currency ++ "_" ++ base
        let itemD := (pairs.get pairDirect).getD .null
        if itemD.isObj && (itemD.get "rate").isSome then
          match ((itemD.get "rate").getD .null).toFloat with
          | some r => .ok (r, warned)
          | none => .error .badRateValue
        else
          let pairInverse := base ++ "_" ++ currency
          let itemI := (pairs.get pairInverse).getD .null
          if itemI.isObj && (itemI.get "rate").isSome then
            match ((itemI.get "rate").getD .null).toFloat with
            | some r => if r ≠ 0 then .ok (1 / r, warned)
                        else .error (.zeroInverse pairInverse)
            | none => .error .badRateValue
          else .error (.rateUnavailable pairDirect)

/-- The dict returned by WalletApp.get_rate_detailed; fromCur and toCur
are its "from" and "to" keys (from is a Lean keyword). updated_at is
passed through as raw JSON, defaulted to the string N/A. -/
structure RateDetails where
  rate : Rat
  rate_inverse : Rat
  updated_at : Json
  fromCur : String
  toCur : String
deriving Repr

/-- WalletApp.get_rate_detailed (usecases.py lines 213-275). Unlike
get_rate it performs no staleness check at all, and on an inverse-only
pair with stored rate 0 it returns forward rate 0 instead of raising. -/
def get_rate_detailed (ratesData : Json) (currencyCode baseCurrency : String) :
    Except RateError RateDetails :=
  let currency := normalize_currency currencyCode
  let base := normalize_currency baseCurrency
  if !currencyCodes.contains currency then .error (.currencyNotFound currency)
  else if !currencyCodes.contains base then .error (.currencyNotFound base)
  else if currency == base then
    .ok { rate := 1, rate_inverse := 1, updated_at := .str "N/A",
          fromCur := currency, toCur := base }
  else
    let isLegacy := ratesData.isObj && (ratesData.get "pairs").isSome
    let pairs := if isLegacy then (ratesData.get "pairs").getD (.obj []) else ratesData
    if !pairs.isObj then .error (.rateUnavailable (currency ++ "_" ++ base))
    else
      let pairDirect := currency ++ "_" ++ base
      let itemD := (pairs.get pairDirect).getD .null
      let pairInverse := base ++ "_" ++ currency
      let itemI := (pairs.get pairInverse).getD .null
      if itemD.isObj && (itemD.get "rate").isSome then
        match ((itemD.get "rate").getD .null).toFloat with
        | some r =>
          .ok { rate := r, rate_inverse := if r ≠ 0 then 1 / r else 0,
                updated_at := (itemD.get "updated_at").getD (.str "N/A"),
                fromCur := currency, toCur := base }
        | none => .error .badRateValue
      else if itemI.isObj && (itemI.get "rate").isSome then
        match ((itemI.get "rate").getD .null).toFloat with
        | some r =>
          .ok { rate := if r ≠ 0 then 1 / r else 0, rate_inverse := r,
                updated_at := (itemI.get "updated_at").getD (.str "N/A"),
                fromCur := currency, toCur := base }
        | none => .error .badRateValue
      else .error (.rateUnavailable pairDirect)

/-- A stored or incoming pair payload as produced by the updater
(updater.py lines 54-58): the dict with rate, updated_at and source.
updated_at is optional because the source reads it with .get, treating
a payload without the key as having none. -/
structure RatePair where
  rate : Rat
  updated_at : Option String
  source : String
deriving Repr, DecidableEq

/-- The pairs table of a snapshot: a Python dict from pair key to
payload, as an ordered association list. -/
abbrev PairMap := List (String × RatePair)

/-- Python truthiness of an optional string (`if a:`): None and the
empty string are falsy. -/
def pyTruthy : Option String → Bool
  | none => false
  | some s => s != ""

/-- RatesStorage._is_newer (storage.py lines 59-65): `a` newer than `b`
when `a` is truthy and `b` is not, never when `a` is falsy, otherwise
by Python string comparison `a > (b or "")`. -/
def is_newer (a b : Option String) : Bool :=
  if pyTruthy a && !pyTruthy b then true
  else if !pyTruthy a then false
  else strGt (a.getD "") (b.getD "")

/-- The typed snapshot held in rates.json: the pairs dict and the
last_refresh stamp (none models JSON null). -/
structure Snapshot where
  pairs : PairMap
  last_refresh : Option String
deriving Repr, DecidableEq

/-- The replacement condition upsert_pairs evaluates for one incoming
pair against the current pair table (storage.py lines 83-86):
_is_newer of the incoming updated_at against the stored one, the
stored one being none when the pair is absent. -/
def wouldReplace (ps : PairMap) (np : String × RatePair) : Bool :=
  is_newer np.2.updated_at ((lookupKey ps np.1).bind (fun c => c.updated_at))

/-- One iteration of the upsert loop (storage.py lines 80-88): replace
the stored payload and count when _is_newer accepts, skip otherwise. -/
def upsertStep (acc : PairMap × Nat) (np : String × RatePair) : PairMap × Nat :=
  if wouldReplace acc.1 np then (setKey acc.1 np.1 np.2, acc.2 + 1) else acc

/-- RatesStorage.upsert_pairs (storage.py lines 67-91) applied to the
loaded snapshot `cache`: folds the upsert loop over the incoming pairs
and saves the resulting table with the supplied last_refresh,
unconditionally. Returns the saved snapshot and the updated count. -/
def upsert_pairs (cache : Snapshot) (newPairs : List (String × RatePair))
    (lastRefresh : String) : Snapshot × Nat :=
  let res := newPairs.foldl upsertStep (cache.pairs, 0)
  ({ pairs := res.1, last_refresh := some lastRefresh }, res.2)

/-- The replacement condition in the words of the spec (for C1), defined
from the spec text for comparison with the source condition
`wouldReplace`: the stored entry is absent, or the incoming updated_at
string is lexicographically greater than the stored one. -/
def specReplaceCond (ps : PairMap) (np : String × RatePair) : Bool :=
  match lookupKey ps np.1 with
  | none => true
  | some c => decide ((c.updated_at.getD "").data < (np.2.updated_at.getD "").data)

/-- One upstream client during one refresh cycle: its configured name
and display name (api_clients.py), the outcome of its fetch_rates()
call — the ApiRequestError it raised or the normalized pair-to-rate
mapping it returned — and the value _now_iso_z() produced when the
updater stamped its pairs (updater.py line 52). -/
structure Client where
  name : String
  display_name : String
  fetch_result : Except String (List (String × Rat))
  stamp : String

/-- Whether the client raised ApiRequestError (updater.py line 71). -/
def clientFailed (cl : Client) : Bool :=
  match cl.fetch_result with
  | .error _ => true
  | .ok _ => false

/-- Client selection (updater.py lines 32-35): with a truthy source
filter, keep the clients whose lowercased name equals the stripped,
lowercased filter; otherwise keep all. -/
def selectClients (clients : List Client) (source : Option String) : List Client :=
  match source with
  | some src0 =>
    if src0 != "" then
      clients.filter (fun c => strLower c.name == strLower (strStrip src0))
    else clients
  | none => clients

/-- One history record (updater.py lines 62-69). -/
structure HistoryEntry where
  id : String
  from_currency : String
  to_currency : String
  rate : Rat
  timestamp : String
  source : String
deriving Repr, DecidableEq

/-- Splitting a character list at every occurrence of a separator,
Python list semantics: `"".split(c)` gives one empty part. -/
def splitOnChar (c : Char) : List Char → List (List Char)
  | [] => [[]]
  | x :: xs =>
    let r := splitOnChar c xs
    if x = c then [] :: r
    else
      match r with
      | [] => [[x]]
      | y :: ys => (x :: y) :: ys

/-- Python `pair.split("_")` at the character level. -/
def splitUnderscore (s : String) : List String :=
  (splitOnChar '_' s.data).map (fun l => ⟨l⟩)

/-- The history entries built from one successful client response
(updater.py lines 60-69): one entry per pair whose key splits into
exactly two parts. -/
def historyOf (cl : Client) (rates : List (String × Rat)) : List HistoryEntry :=
  rates.filterMap (fun pr =>
    match splitUnderscore pr.1 with
    | [a, b] => some { id := pr.1 ++ "_" ++ cl.stamp, from_currency := a,
                       to_currency := b, rate := pr.2, timestamp := cl.stamp,
                       source := cl.display_name }
    | _ => none)

/-- The merge of one client into the in-memory pair table (updater.py
lines 52-58): a failed client contributes nothing, a successful one
writes every returned pair stamped with its call time and display
name. -/
def mergeClient (m : PairMap) (cl : Client) : PairMap :=
  match cl.fetch_result with
  | .ok rates => rates.foldl (fun m2 pr => setKey m2 pr.1
      { rate := pr.2, updated_at := some cl.stamp, source := cl.display_name }) m
  | .error _ => m

/-- The running state of the client loop of run_update: the merged pair
table, the history buffer and the error counter. -/
structure CycleAcc where
  merged : PairMap
  history : List HistoryEntry
  errors : Nat
deriving Repr, DecidableEq

/-- One iteration of the client loop (updater.py lines 44-73): merge and
record history on success, count and continue on ApiRequestError. -/
def processClient (acc : CycleAcc) (cl : Client) : CycleAcc :=
  match cl.fetch_result with
  | .ok rates =>
    { merged := mergeClient acc.merged cl,
      history := acc.history ++ historyOf cl rates,
      errors := acc.errors }
  | .error _ => { acc with errors := acc.errors + 1 }

/-- The pair table merged from a list of clients in order, starting
empty. -/
def mergeRates (cls : List Client) : PairMap := cls.foldl mergeClient []

/-- The dict run_update returns (updater.py lines 97-101). -/
structure UpdateReport where
  updated : Nat
  last_refresh : String
  errors : Nat
deriving Repr, DecidableEq

/-- The observable outcome of one run_update call: the snapshot written
to rates.json through upsert_pairs, the entries appended to the history
log, and the returned report. -/
structure RunUpdateOut where
  snapshot : Snapshot
  history : List HistoryEntry
  report : UpdateReport
deriving Repr, DecidableEq

/-- RatesUpdater.run_update (updater.py lines 29-101). `cache` is the
snapshot upsert_pairs loads from rates.json, `T` the cycle timestamp
computed at line 37 before any client is called and passed as
last_refresh to the store. -/
def run_update (cache : Snapshot) (clients : List Client) (source : Option String)
    (T : String) : RunUpdateOut :=
  let chosen := selectClients clients source
  let acc := chosen.foldl processClient { merged := [], history := [], errors := 0 }
  let up := upsert_pairs cache acc.merged T
  { snapshot := up.1, history := acc.history,
    report := { updated := up.2, last_refresh := T, errors := acc.errors } }

/-- ExchangeRateApiClient.fetch_rates (api_clients.py lines 78-106),
the successful path after the provider returned the conversion_rates
dict (modelled with numeric rates, which is what the float(v)
conversion accepts): for every configured fiat code other than the
base, a present nonzero response rate v yields the pair CODE_BASE at
1/v; absent and zero rates are skipped without failing the fetch.
`fiatStep` is the body of its per-currency loop. -/
def fiatStep (base : String) (responseRates : List (String × Rat))
    (out : List (String × Rat)) (code : String) : List (String × Rat) :=
  let code_u := strUpper code
  if code_u == base then out
  else
    match lookupKey responseRates code_u with
    | none => out
    | some v => if v ≠ 0 then setKey out (code_u ++ "_" ++ base) (1 / v) else out

def fetch_rates (fiat_currencies : List String) (base : String)
    (responseRates : List (String × Rat)) : List (String × Rat) :=
  fiat_currencies.foldl (fiatStep base responseRates) []

/-- The concrete cache refuting C4 as stated: direct pair BTC_USD
absent, inverse pair USD_BTC stored with rate exactly 0. -/
def zeroInverseCache : Json :=
  .obj [("pairs", .obj
      [("USD_BTC", .obj [("rate", .num 0),
          ("updated_at", .str "2024-01-01T00:00:00Z"),
          ("source", .str "CoinGecko")])]),
    ("last_refresh", .str "2024-01-01T00:00:00Z")]


/-- Looking up the key just written finds the written value. -/
theorem lookupKey_setKey_self {α : Type} (ps : List (String × α)) (k : String) (v : α) :
    lookupKey (setKey ps k v) k = some v := by
  induction ps with
  | nil => simp [setKey, lookupKey]
  | cons p t ih =>
    by_cases h : (p.1 == k) = true
    · simp [setKey, lookupKey, h]
    · have hf : (p.1 == k) = false := by simpa using h
      simp [setKey, lookupKey, hf, ih]

/-- Writing one key leaves lookups of other keys unchanged. -/
theorem lookupKey_setKey_ne {α : Type} (ps : List (String × α)) (k k' : String) (v : α)
    (hne : k' ≠ k) :
    lookupKey (setKey ps k v) k' = lookupKey ps k' := by
  have hkk : (k == k') = false := by simpa using Ne.symm hne
  induction ps with
  | nil => simp [setKey, lookupKey, hkk]
  | cons p t ih =>
    by_cases h : (p.1 == k) = true
    · have hp : p.1 = k := by simpa using h
      simp [setKey, lookupKey, h, hkk, hp]
    · have hf : (p.1 == k) = false := by simpa using h
      simp [setKey, lookupKey, hf, ih]

/-- A successful lookup comes from a binding in the list. -/
theorem lookupKey_some_mem {α : Type} (ps : List (String × α)) (k : String) (v : α)
    (h : lookupKey ps k = some v) : (k, v) ∈ ps := by
  induction ps with
  | nil => simp [lookupKey] at h
  | cons p t ih =>
    by_cases hb : (p.1 == k) = true
    · have hp : p.1 = k := by simpa using hb
      obtain ⟨p1, p2⟩ := p
      simp only [lookupKey, hb, if_true, Option.some.injEq] at h
      simp only at hp
      subst hp
      subst h
      exact List.mem_cons_self _ _
    · have hf : (p.1 == k) = false := by simpa using hb
      simp only [lookupKey, hf, Bool.false_eq_true, if_false] at h
      exact List.mem_cons_of_mem _ (ih h)

/-- Strict lexicographic order on character lists is irreflexive. -/
theorem list_char_lt_irrefl (l : List Char) : ¬ l < l := by
  induction l with
  | nil => intro h; cases h
  | cons c cs ih =>
    intro h
    cases h with
    | cons htl => exact ih htl
    | rel hlt => exact absurd hlt (lt_irrefl c)

/-- _is_newer never accepts a timestamp equal to the stored one. -/
theorem is_newer_self (x : Option String) : is_newer x x = false := by
  cases x with
  | none => rfl
  | some s =>
    by_cases h : s = ""
    · subst h; rfl
    · have ht : pyTruthy (some s) = true := by simp [pyTruthy, h]
      simp only [is_newer, ht, Bool.not_true, Bool.and_false, Bool.false_eq_true, if_false,
        Bool.not_eq_true', Option.getD_some, strGt]
      simp [list_char_lt_irrefl]

/-- The replacement condition is unaffected by writes to other keys. -/
theorem wouldReplace_setKey_ne (ps : PairMap) (k : String) (v : RatePair)
    (np : String × RatePair) (h : np.1 ≠ k) :
    wouldReplace (setKey ps k v) np = wouldReplace ps np := by
  unfold wouldReplace
  rw [lookupKey_setKey_ne _ _ _ _ h]

/-- The upsert loop never touches keys outside the incoming pairs. -/
theorem foldl_upsert_lookup_notmem (l : List (String × RatePair)) (ps : PairMap) (n : Nat)
    (k : String) (hk : k ∉ l.map Prod.fst) :
    lookupKey (l.foldl upsertStep (ps, n)).1 k = lookupKey ps k := by
  induction l generalizing ps n with
  | nil => rfl
  | cons np t ih =>
    obtain ⟨h1, h2⟩ : k ≠ np.1 ∧ k ∉ t.map Prod.fst := by
      simpa [not_or] using hk
    simp only [List.foldl_cons]
    by_cases hw : wouldReplace ps np = true
    · rw [show upsertStep (ps, n) np = (setKey ps np.1 np.2, n + 1) by
        simp [upsertStep, hw]]
      rw [ih _ _ h2, lookupKey_setKey_ne _ _ _ _ h1]
    · rw [show upsertStep (ps, n) np = (ps, n) by simp [upsertStep, hw]]
      exact ih _ _ h2

/-- The updated count accumulated by the upsert loop is the number of
incoming pairs accepted by the replacement condition against the
initial table, provided the incoming keys are distinct. -/
theorem foldl_upsert_count (l : List (String × RatePair)) (ps : PairMap) (n : Nat)
    (hnd : (l.map Prod.fst).Nodup) :
    (l.foldl upsertStep (ps, n)).2 = n + (l.filter (fun np => wouldReplace ps np)).length := by
  induction l generalizing ps n with
  | nil => simp
  | cons np t ih =>
    obtain ⟨h1, h2⟩ : np.1 ∉ t.map Prod.fst ∧ (t.map Prod.fst).Nodup := by
      simpa using hnd
    have hcongr : t.filter (fun np2 => wouldReplace (setKey ps np.1 np.2) np2) =
        t.filter (fun np2 => wouldReplace ps np2) := by
      apply List.filter_congr
      intro x hx
      have hxne : x.1 ≠ np.1 := fun he => h1 (he ▸ List.mem_map_of_mem Prod.fst hx)
      exact wouldReplace_setKey_ne _ _ _ _ hxne
    simp only [List.foldl_cons]
    by_cases hw : wouldReplace ps np = true
    · rw [show upsertStep (ps, n) np = (setKey ps np.1 np.2, n + 1) by
        simp [upsertStep, hw]]
      rw [ih _ _ h2, hcongr, List.filter_cons, if_pos hw]
      simp [Nat.add_comm, Nat.add_assoc, Nat.add_left_comm]
    · rw [show upsertStep (ps, n) np = (ps, n) by simp [upsertStep, hw]]
      rw [ih _ _ h2, List.filter_cons, if_neg hw]

/-- After the upsert loop, a key among the incoming pairs holds the
incoming payload exactly when the replacement condition accepted it,
and the previously stored value otherwise. -/
theorem foldl_upsert_lookup_mem (l : List (String × RatePair)) (ps : PairMap) (n : Nat)
    (k : String) (v : RatePair)
    (hnd : (l.map Prod.fst).Nodup) (hkv : (k, v) ∈ l) :
    lookupKey (l.foldl upsertStep (ps, n)).1 k =
      if wouldReplace ps (k, v) then some v else lookupKey ps k := by
  induction l generalizing ps n with
  | nil => cases hkv
  | cons np t ih =>
    obtain ⟨h1, h2⟩ : np.1 ∉ t.map Prod.fst ∧ (t.map Prod.fst).Nodup := by
      simpa using hnd
    rcases List.mem_cons.mp hkv with he | hmt
    · subst he
      have h1k : k ∉ t.map Prod.fst := h1
      simp only [List.foldl_cons]
      by_cases hw : wouldReplace ps (k, v) = true
      · rw [show upsertStep (ps, n) (k, v) = (setKey ps k v, n + 1) by
          simp [upsertStep, hw]]
        rw [foldl_upsert_lookup_notmem _ _ _ _ h1k, lookupKey_setKey_self]
        simp [hw]
      · rw [show upsertStep (ps, n) (k, v) = (ps, n) by simp [upsertStep, hw]]
        rw [foldl_upsert_lookup_notmem _ _ _ _ h1k]
        simp [hw]
    · have hkne : k ≠ np.1 := by
        intro he2
        exact h1 (he2 ▸ List.mem_map_of_mem Prod.fst hmt)
      simp only [List.foldl_cons]
      by_cases hw : wouldReplace ps np = true
      · rw [show upsertStep (ps, n) np = (setKey ps np.1 np.2, n + 1) by
          simp [upsertStep, hw]]
        rw [ih _ _ h2 hmt, wouldReplace_setKey_ne _ _ _ _ hkne,
          lookupKey_setKey_ne _ _ _ _ hkne]
      · rw [show upsertStep (ps, n) np = (ps, n) by simp [upsertStep, hw]]
        exact ih _ _ h2 hmt

/-- A failing client used in concrete instances: CoinGecko raising a
network error. -/
def cgFailClient : Client :=
  { name := "coingecko", display_name := "CoinGecko",
    fetch_result := .error "Network error.", stamp := "2024-01-02T00:00:01Z" }

/-- A successful client used in concrete instances: ExchangeRate-API
returning two pairs. -/
def erOkClient : Client :=
  { name := "exchangerate", display_name := "ExchangeRate-API",
    fetch_result := .ok [("EUR_USD", 2), ("RUB_USD", 3)],
    stamp := "2024-01-02T00:00:02Z" }

/-- A failing client used in concrete instances: CoinGecko answering
with an HTTP error status. -/
def cgHttpFailClient : Client :=
  { name := "coingecko", display_name := "CoinGecko",
    fetch_result := .error "HTTP 500", stamp := "2024-01-03T00:00:01Z" }

/-- A concrete snapshot holding one BTC_USD pair. -/
def btcSnapshot : Snapshot :=
  { pairs := [("BTC_USD", { rate := 50000, updated_at := some "2024-01-01T00:00:00Z",
                            source := "CoinGecko" })],
    last_refresh := some "2024-01-01T00:00:00Z" }

/-- A concrete incoming pair for ETH_USD. -/
def ethIncoming : String × RatePair :=
  ("ETH_USD", { rate := 3000, updated_at := some "2024-01-02T00:00:00Z",
                source := "CoinGecko" })

end ValutaTradeHub

namespace ValutaTradeHub

/-- Every value produced by `load` is a two-field dict whose pairs field
is a dict. -/
theorem load_shape (fs : FileState) :
    ∃ p l, load fs = .obj [("pairs", p), ("last_refresh", l)] ∧ p.isObj = true := by
  cases fs with
  | missing => exact ⟨.obj [], .null, rfl, rfl⟩
  | corrupt => exact ⟨.obj [], .null, rfl, rfl⟩
  | parsed data =>
    unfold load
    by_cases h : data.isObj
    · simp only [h, Bool.not_true, Bool.false_eq_true, if_false]
      refine ⟨_, _, rfl, ?_⟩
      split
      · split
        · assumption
        · rfl
      · rfl
    · simp only [Bool.not_eq_true] at h
      simp only [h, Bool.not_false, if_true]
      exact ⟨.obj [], .null, rfl, rfl⟩

/-- C7: the save-load round trip is semantically a no-op on the cache
file: for every file state, saving the loaded snapshot and loading the
written file yields exactly the snapshot loaded before, pairs and
last_refresh included. -/
theorem save_load_roundtrip (fs : FileState) :
    load (.parsed (save (load fs))) = load fs := by
  obtain ⟨p, l, hE, hP⟩ := load_shape fs
  rw [hE]
  have hsave : save (Json.obj [("pairs", p), ("last_refresh", l)]) =
      Json.obj [("pairs", p), ("last_refresh", l)] := by
    simp [save, Json.get, lookupKey, hP]
  rw [hsave]
  unfold load
  simp only [Json.isObj, Bool.not_true, Bool.false_eq_true, if_false]
  simp only [Json.get, lookupKey]
  norm_num
  cases hp : p with
  | obj fields =>
    cases fields with
    | nil => simp [Json.truthy, Json.isObj]
    | cons f fs' => simp [Json.truthy, Json.isObj]
  | null => rw [hp] at hP; simp [Json.isObj] at hP
  | bool b => rw [hp] at hP; simp [Json.isObj] at hP
  | num q => rw [hp] at hP; simp [Json.isObj] at hP
  | str s => rw [hp] at hP; simp [Json.isObj] at hP
  | arr elems => rw [hp] at hP; simp [Json.isObj] at hP

/-- A JSON value with a successful field lookup is a dict. -/
theorem Json.get_isObj {j : Json} {k : String} {v : Json} (h : j.get k = some v) :
    j.isObj = true := by
  cases j <;> simp [Json.get, Json.isObj] at h ⊢

/-- Field lookup on a dict value evaluates to association-list lookup. -/
@[simp] theorem Json.get_obj (fields : List (String × Json)) (k : String) :
    (Json.obj fields).get k = lookupKey fields k := rfl

/-- A dict value is a dict. -/
@[simp] theorem Json.isObj_obj (fields : List (String × Json)) :
    (Json.obj fields).isObj = true := rfl

/-- Null is not a dict. -/
@[simp] theorem Json.isObj_null : Json.null.isObj = false := rfl

/-- Field lookup on null yields none. -/
@[simp] theorem Json.get_null (k : String) : Json.null.get k = none := rfl

/-- C2: the staleness check of WalletApp.get_rate never sees the
timestamp the storage writes. For every cache file written by
RatesStorage.save — which stores the cycle stamp under "last_refresh" —
the check reads the key "last_update", finds nothing, and reports the
cache stale, regardless of the parse function, the current time, the
TTL and how fresh last_refresh is. -/
theorem needsUpdate_ignores_last_refresh
    (parseIso : String → Option Int) (now ttl : Int) (data : Json) :
    needsUpdate parseIso now ttl (save data) = true := by
  simp [needsUpdate, save, Json.get, lookupKey, Json.truthy]

/-- C3: when the direct pair FROM_TO is stored with rate r, the
detailed lookup returns rate r with computed inverse 1/r (0 instead of
a division error when r is 0) and the direct entry's updated_at; the
result is fully determined by the direct entry, so when the reverse
pair TO_FROM is also stored it is never consulted and never averaged
in. -/
theorem direct_pair_wins
    (ratesData : Json) (pf : List (String × Json)) (itemD : Json)
    (f t : String) (r : Rat)
    (hobj : ratesData.isObj = true)
    (hpairs : ratesData.get "pairs" = some (.obj pf))
    (hc : normalize_currency f ∈ currencyCodes)
    (hb : normalize_currency t ∈ currencyCodes)
    (hne : normalize_currency f ≠ normalize_currency t)
    (hdirect : lookupKey pf (normalize_currency f ++ "_" ++ normalize_currency t) =
      some itemD)
    (hrate : itemD.get "rate" = some (.num r)) :
    get_rate_detailed ratesData f t =
      .ok { rate := r, rate_inverse := if r ≠ 0 then 1 / r else 0,
            updated_at := (itemD.get "updated_at").getD (.str "N/A"),
            fromCur := normalize_currency f, toCur := normalize_currency t } := by
  have hD : itemD.isObj = true := Json.get_isObj hrate
  simp [get_rate_detailed, hc, hb, hne, hobj, hpairs, hdirect, hrate, hD, Json.toFloat]

/-- Witness for C3: a cache holding both BTC_USD at 60000 and the
reverse USD_BTC at a different rate resolves (BTC, USD) from the direct
entry alone. -/
theorem direct_pair_wins_witness :
    get_rate_detailed
      (.obj [("pairs", .obj
          [("BTC_USD", .obj [("rate", .num 60000),
              ("updated_at", .str "2024-01-01T00:00:00Z"),
              ("source", .str "CoinGecko")]),
           ("USD_BTC", .obj [("rate", .num 999),
              ("updated_at", .str "2024-01-01T00:00:00Z"),
              ("source", .str "CoinGecko")])]),
        ("last_refresh", .str "2024-01-01T00:00:00Z")]) "BTC" "USD" =
      .ok { rate := 60000, rate_inverse := if (60000 : Rat) ≠ 0 then 1 / 60000 else 0,
            updated_at := .str "2024-01-01T00:00:00Z",
            fromCur := "BTC", toCur := "USD" } :=
  direct_pair_wins
    (.obj [("pairs", .obj
        [("BTC_USD", .obj [("rate", .num 60000),
            ("updated_at", .str "2024-01-01T00:00:00Z"),
            ("source", .str "CoinGecko")]),
         ("USD_BTC", .obj [("rate", .num 999),
            ("updated_at", .str "2024-01-01T00:00:00Z"),
            ("source", .str "CoinGecko")])]),
      ("last_refresh", .str "2024-01-01T00:00:00Z")])
    [("BTC_USD", .obj [("rate", .num 60000),
        ("updated_at", .str "2024-01-01T00:00:00Z"),
        ("source", .str "CoinGecko")]),
     ("USD_BTC", .obj [("rate", .num 999),
        ("updated_at", .str "2024-01-01T00:00:00Z"),
        ("source", .str "CoinGecko")])]
    (.obj [("rate", .num 60000), ("updated_at", .str "2024-01-01T00:00:00Z"),
           ("source", .str "CoinGecko")])
    "BTC" "USD" 60000 rfl rfl (by decide) (by decide) (by decide) rfl rfl

/-- C4 as amended: with the direct pair absent and the inverse pair
stored with rate r, get_rate returns 1/r when r is nonzero; when r is
exactly 0, get_rate raises the ValueError naming the inverse pair (not
the RateUnavailable error the spec promises) and get_rate_detailed does
not fail at all, returning forward rate 0 with inverse 0. -/
theorem inverse_pair_resolution
    (parseIso : String → Option Int) (now ttl : Int)
    (ratesData : Json) (pf : List (String × Json)) (itemI : Json)
    (f t : String) (r : Rat)
    (hobj : ratesData.isObj = true)
    (hpairs : ratesData.get "pairs" = some (.obj pf))
    (hc : normalize_currency f ∈ currencyCodes)
    (hb : normalize_currency t ∈ currencyCodes)
    (hne : normalize_currency f ≠ normalize_currency t)
    (hdirect : lookupKey pf (normalize_currency f ++ "_" ++ normalize_currency t) = none)
    (hinv : lookupKey pf (normalize_currency t ++ "_" ++ normalize_currency f) =
      some itemI)
    (hrate : itemI.get "rate" = some (.num r))
    (hraise : staleWarnRaises parseIso ratesData = false) :
    (r ≠ 0 → get_rate parseIso now ttl ratesData f t =
        .ok (1 / r, needsUpdate parseIso now ttl ratesData))
    ∧ (r = 0 → get_rate parseIso now ttl ratesData f t =
        .error (.zeroInverse (normalize_currency t ++ "_" ++ normalize_currency f)))
    ∧ get_rate_detailed ratesData f t =
        .ok { rate := if r ≠ 0 then 1 / r else 0, rate_inverse := r,
              updated_at := (itemI.get "updated_at").getD (.str "N/A"),
              fromCur := normalize_currency f, toCur := normalize_currency t } := by
  have hI : itemI.isObj = true := Json.get_isObj hrate
  refine ⟨fun hr => ?_, fun hr => ?_, ?_⟩
  · simp [get_rate, hc, hb, hne, hobj, hpairs, hdirect, hinv, hrate, hI,
      Json.toFloat, hr, hraise]
  · simp [get_rate, hc, hb, hne, hobj, hpairs, hdirect, hinv, hrate, hI,
      Json.toFloat, hr, hraise]
  · simp [get_rate_detailed, hc, hb, hne, hobj, hpairs, hdirect, hinv, hrate, hI,
      Json.toFloat]

/-- Witness for C4 as amended: a cache holding only USD_BTC at rate 2
resolves (BTC, USD) to 1/2. -/
theorem inverse_pair_resolution_witness :
    get_rate (fun _ => none) 0 300
      (.obj [("pairs", .obj
          [("USD_BTC", .obj [("rate", .num 2),
              ("updated_at", .str "2024-01-01T00:00:00Z"),
              ("source", .str "CoinGecko")])]),
        ("last_refresh", .str "2024-01-01T00:00:00Z")]) "BTC" "USD" =
      .ok (1 / 2, needsUpdate (fun _ => none) 0 300
        (.obj [("pairs", .obj
            [("USD_BTC", .obj [("rate", .num 2),
                ("updated_at", .str "2024-01-01T00:00:00Z"),
                ("source", .str "CoinGecko")])]),
          ("last_refresh", .str "2024-01-01T00:00:00Z")])) :=
  (inverse_pair_resolution (fun _ => none) 0 300
    (.obj [("pairs", .obj
        [("USD_BTC", .obj [("rate", .num 2),
            ("updated_at", .str "2024-01-01T00:00:00Z"),
            ("source", .str "CoinGecko")])]),
      ("last_refresh", .str "2024-01-01T00:00:00Z")])
    [("USD_BTC", .obj [("rate", .num 2),
        ("updated_at", .str "2024-01-01T00:00:00Z"),
        ("source", .str "CoinGecko")])]
    (.obj [("rate", .num 2), ("updated_at", .str "2024-01-01T00:00:00Z"),
           ("source", .str "CoinGecko")])
    "BTC" "USD" 2 rfl rfl (by decide) (by decide) (by decide) rfl rfl rfl
    (by decide)).1
    (by norm_num)

/-- Counterexample to C4 as stated: on a stored inverse rate of exactly
0, get_rate fails with the ValueError (zeroInverse), not with
RateUnavailable as claimed, and get_rate_detailed does not fail at all
but returns forward rate 0. -/
theorem inverse_zero_not_rate_unavailable :
    get_rate (fun _ => none) 0 300 zeroInverseCache "BTC" "USD" =
      .error (.zeroInverse "USD_BTC")
    ∧ get_rate (fun _ => none) 0 300 zeroInverseCache "BTC" "USD" ≠
      .error (.rateUnavailable "USD_BTC")
    ∧ get_rate (fun _ => none) 0 300 zeroInverseCache "BTC" "USD" ≠
      .error (.rateUnavailable "BTC_USD")
    ∧ get_rate_detailed zeroInverseCache "BTC" "USD" =
      .ok { rate := 0, rate_inverse := 0,
            updated_at := .str "2024-01-01T00:00:00Z",
            fromCur := "BTC", toCur := "USD" } := by
  have h1 : get_rate (fun _ => none) 0 300 zeroInverseCache "BTC" "USD" =
      .error (.zeroInverse "USD_BTC") := by rfl
  refine ⟨h1, ?_, ?_, by rfl⟩
  · rw [h1]; intro h; simp at h
  · rw [h1]; intro h; simp at h

/-- C5: on a missing, empty or corrupt cache file, load returns the
empty snapshot (pairs empty, last_refresh null) without raising (load
is total by construction, every decode error being caught in the
source), and resolving any pair of distinct registered currencies
against that empty snapshot fails with the RateUnavailable error naming
the missing direct pair. -/
theorem load_empty_resolve_unavailable
    (parseIso : String → Option Int) (now ttl : Int) (f t : String)
    (hc : normalize_currency f ∈ currencyCodes)
    (hb : normalize_currency t ∈ currencyCodes)
    (hne : normalize_currency f ≠ normalize_currency t) :
    load .missing = emptySnapshotJson
    ∧ load .corrupt = emptySnapshotJson
    ∧ get_rate parseIso now ttl emptySnapshotJson f t =
        .error (.rateUnavailable
          (normalize_currency f ++ "_" ++ normalize_currency t)) := by
  refine ⟨rfl, rfl, ?_⟩
  simp [get_rate, hc, hb, hne, emptySnapshotJson, lookupKey, Json.isObj, Json.get,
    staleWarnRaises, Json.truthy]

/-- Witness for C5: the spec scenario, resolving (BTC, USD) against the
empty snapshot. -/
theorem load_empty_resolve_unavailable_witness :
    load .missing = emptySnapshotJson
    ∧ load .corrupt = emptySnapshotJson
    ∧ get_rate (fun _ => none) 0 300 emptySnapshotJson "BTC" "USD" =
        .error (.rateUnavailable "BTC_USD") :=
  load_empty_resolve_unavailable (fun _ => none) 0 300 "BTC" "USD"
    (by decide) (by decide) (by decide)

/-- C8: resolving a registered currency against itself returns rate 1
with inverse 1 and updated_at N/A, for every cache state, without
consulting the cache (the conclusion holds for arbitrary ratesData) and
without reaching the staleness check (the warned flag is false because
get_rate returns before the TTL block). -/
theorem same_currency_rate_one
    (parseIso : String → Option Int) (now ttl : Int) (ratesData : Json) (x : String)
    (hx : normalize_currency x ∈ currencyCodes) :
    get_rate parseIso now ttl ratesData x x = .ok (1, false)
    ∧ get_rate_detailed ratesData x x =
        .ok { rate := 1, rate_inverse := 1, updated_at := .str "N/A",
              fromCur := normalize_currency x, toCur := normalize_currency x } := by
  constructor
  · simp [get_rate, hx]
  · simp [get_rate_detailed, hx]

/-- Witness for C8: resolving btc (lower case, normalized to BTC)
against itself over a nonempty cache that even stores a BTC_BTC pair
with a rate other than 1; the lookup still returns 1 and ignores the
cache. -/
theorem same_currency_rate_one_witness :
    get_rate (fun _ => none) 0 300
      (.obj [("pairs", .obj [("BTC_BTC", .obj [("rate", .num 7)])]),
             ("last_refresh", .null)]) "btc" "BTC" = .ok (1, false)
    ∧ get_rate_detailed
        (.obj [("pairs", .obj [("BTC_BTC", .obj [("rate", .num 7)])]),
               ("last_refresh", .null)]) "btc" "BTC" =
        .ok { rate := 1, rate_inverse := 1, updated_at := .str "N/A",
              fromCur := "BTC", toCur := "BTC" } :=
  same_currency_rate_one (fun _ => none) 0 300 _ "btc" (by decide)


/-- A second upsert of the same incoming pairs replaces nothing: after
the first run every stored timestamp at an incoming key is the incoming
one or a value _is_newer already rejected. -/
theorem upsert_second_zero (cache : Snapshot) (newPairs : List (String × RatePair))
    (lr lr2 : String) (hnd : (newPairs.map Prod.fst).Nodup) :
    (upsert_pairs (upsert_pairs cache newPairs lr).1 newPairs lr2).2 = 0 := by
  unfold upsert_pairs
  simp only
  rw [foldl_upsert_count _ _ _ hnd]
  simp only [Nat.zero_add, List.length_eq_zero, List.filter_eq_nil_iff]
  intro np hnp
  obtain ⟨k0, v0⟩ := np
  have hl := foldl_upsert_lookup_mem newPairs cache.pairs 0 k0 v0 hnd hnp
  unfold wouldReplace
  simp only
  rw [hl]
  by_cases hw : wouldReplace cache.pairs (k0, v0) = true
  · simp [hw, is_newer_self]
  · rw [if_neg hw]
    unfold wouldReplace at hw
    simp only at hw
    simpa using hw

/-- On well-formed timestamps the source condition _is_newer coincides
with the spec condition: replace exactly when the stored entry is
absent or the incoming updated_at is lexicographically greater. -/
theorem wouldReplace_eq_specReplaceCond (ps : PairMap) (np : String × RatePair)
    (hnp : np.2.updated_at.any (fun t => t != "") = true)
    (hst : ∀ c, lookupKey ps np.1 = some c → c.updated_at.isSome = true) :
    wouldReplace ps np = specReplaceCond ps np := by
  obtain ⟨s, hseq, hsne⟩ : ∃ s, np.2.updated_at = some s ∧ s ≠ "" := by
    cases h : np.2.updated_at with
    | none => rw [h] at hnp; simp [Option.any] at hnp
    | some s =>
      rw [h] at hnp
      simp only [Option.any, bne_iff_ne, ne_eq, decide_eq_true_eq] at hnp
      exact ⟨s, rfl, hnp⟩
  cases hl : lookupKey ps np.1 with
  | none =>
    unfold wouldReplace specReplaceCond
    rw [hl, hseq]
    simp [is_newer, pyTruthy, hsne]
  | some c =>
    obtain ⟨t, hteq⟩ : ∃ t, c.updated_at = some t :=
      Option.isSome_iff_exists.mp (hst c hl)
    unfold wouldReplace specReplaceCond
    rw [hl, hseq]
    simp only [Option.some_bind, hteq, Option.getD_some]
    by_cases ht : t = ""
    · subst ht
      have hf : pyTruthy (some "") = false := by simp [pyTruthy]
      have htr : pyTruthy (some s) = true := by simp [pyTruthy, hsne]
      simp only [is_newer, htr, hf, Bool.not_false, Bool.and_true, if_true]
      cases hsd : s.data with
      | nil =>
        exfalso
        apply hsne
        cases s with
        | mk d => exact congrArg String.mk hsd
      | cons a l2 =>
        exact (decide_eq_true (List.nil_lt_cons a l2)).symm
    · have htT : pyTruthy (some t) = true := by simp [pyTruthy, ht]
      have hsT : pyTruthy (some s) = true := by simp [pyTruthy, hsne]
      simp [is_newer, htT, hsT, strGt, hteq]

/-- C1: for every incoming pair with a well-formed timestamp, upsert
replaces the stored entry exactly when the stored entry is absent or
the incoming updated_at is lexicographically greater than the stored
one (so a stored timestamp greater than or equal to the incoming one is
never overwritten); updated_count is the number of incoming pairs
accepted by that condition; and a second application of the same
incoming pairs updates nothing. The Nodup hypothesis states that the
incoming keys are distinct, which a Python dict guarantees. -/
theorem upsert_newest_wins (cache : Snapshot) (newPairs : List (String × RatePair))
    (lr lr2 : String) (k : String) (v : RatePair)
    (hnd : (newPairs.map Prod.fst).Nodup)
    (hkv : (k, v) ∈ newPairs)
    (hstored : ∀ p ∈ cache.pairs, (Prod.snd p).updated_at.isSome = true)
    (hnew : ∀ np ∈ newPairs, (Prod.snd np).updated_at.any (fun t => t != "") = true) :
    (lookupKey (upsert_pairs cache newPairs lr).1.pairs k =
      if specReplaceCond cache.pairs (k, v) then some v else lookupKey cache.pairs k)
    ∧ (upsert_pairs cache newPairs lr).2 =
        (newPairs.filter (fun np => specReplaceCond cache.pairs np)).length
    ∧ (upsert_pairs (upsert_pairs cache newPairs lr).1 newPairs lr2).2 = 0 := by
  have hspec : ∀ np ∈ newPairs, wouldReplace cache.pairs np = specReplaceCond cache.pairs np :=
    fun np hnp => wouldReplace_eq_specReplaceCond cache.pairs np (hnew np hnp)
      (fun c hc => hstored (np.1, c) (lookupKey_some_mem _ _ _ hc))
  refine ⟨?_, ?_, upsert_second_zero cache newPairs lr lr2 hnd⟩
  · have hkey := foldl_upsert_lookup_mem newPairs cache.pairs 0 k v hnd hkv
    show lookupKey (newPairs.foldl upsertStep (cache.pairs, 0)).1 k = _
    rw [hkey, hspec (k, v) hkv]
  · show (newPairs.foldl upsertStep (cache.pairs, 0)).2 = _
    rw [foldl_upsert_count _ _ _ hnd, Nat.zero_add]
    congr 1
    exact List.filter_congr hspec

/-- Witness for C1: a cache holding BTC_USD and EUR_USD, incoming pairs
carrying a newer BTC_USD, an older EUR_USD and a new ETH_USD. -/
theorem upsert_newest_wins_witness :
    (lookupKey (upsert_pairs
        { pairs := [("BTC_USD", { rate := 50000, updated_at := some "2024-01-01T00:00:00Z",
                                  source := "CoinGecko" }),
                    ("EUR_USD", { rate := 2, updated_at := some "2024-01-02T00:00:00Z",
                                  source := "ExchangeRate-API" })],
          last_refresh := some "2024-01-02T00:00:00Z" }
        [("BTC_USD", { rate := 60000, updated_at := some "2024-01-02T12:00:00Z",
                       source := "CoinGecko" }),
         ("EUR_USD", { rate := 3, updated_at := some "2024-01-01T12:00:00Z",
                       source := "ExchangeRate-API" }),
         ("ETH_USD", { rate := 3000, updated_at := some "2024-01-02T12:00:00Z",
                       source := "CoinGecko" })]
        "2024-01-02T12:00:00Z").1.pairs "BTC_USD" =
      if specReplaceCond
          [("BTC_USD", { rate := 50000, updated_at := some "2024-01-01T00:00:00Z",
                         source := "CoinGecko" }),
           ("EUR_USD", { rate := 2, updated_at := some "2024-01-02T00:00:00Z",
                         source := "ExchangeRate-API" })]
          ("BTC_USD", { rate := 60000, updated_at := some "2024-01-02T12:00:00Z",
                        source := "CoinGecko" })
      then some { rate := 60000, updated_at := some "2024-01-02T12:00:00Z",
                  source := "CoinGecko" }
      else lookupKey
          [("BTC_USD", { rate := 50000, updated_at := some "2024-01-01T00:00:00Z",
                         source := "CoinGecko" }),
           ("EUR_USD", { rate := 2, updated_at := some "2024-01-02T00:00:00Z",
                         source := "ExchangeRate-API" })] "BTC_USD")
    ∧ (upsert_pairs
        { pairs := [("BTC_USD", { rate := 50000, updated_at := some "2024-01-01T00:00:00Z",
                                  source := "CoinGecko" }),
                    ("EUR_USD", { rate := 2, updated_at := some "2024-01-02T00:00:00Z",
                                  source := "ExchangeRate-API" })],
          last_refresh := some "2024-01-02T00:00:00Z" }
        [("BTC_USD", { rate := 60000, updated_at := some "2024-01-02T12:00:00Z",
                       source := "CoinGecko" }),
         ("EUR_USD", { rate := 3, updated_at := some "2024-01-01T12:00:00Z",
                       source := "ExchangeRate-API" }),
         ("ETH_USD", { rate := 3000, updated_at := some "2024-01-02T12:00:00Z",
                       source := "CoinGecko" })]
        "2024-01-02T12:00:00Z").2 =
      ([("BTC_USD", { rate := 60000, updated_at := some "2024-01-02T12:00:00Z",
                      source := "CoinGecko" }),
        ("EUR_USD", { rate := 3, updated_at := some "2024-01-01T12:00:00Z",
                      source := "ExchangeRate-API" }),
        ("ETH_USD", { rate := 3000, updated_at := some "2024-01-02T12:00:00Z",
                      source := "CoinGecko" })].filter
        (fun np => specReplaceCond
          [("BTC_USD", { rate := 50000, updated_at := some "2024-01-01T00:00:00Z",
                         source := "CoinGecko" }),
           ("EUR_USD", { rate := 2, updated_at := some "2024-01-02T00:00:00Z",
                         source := "ExchangeRate-API" })] np)).length
    ∧ (upsert_pairs (upsert_pairs
        { pairs := [("BTC_USD", { rate := 50000, updated_at := some "2024-01-01T00:00:00Z",
                                  source := "CoinGecko" }),
                    ("EUR_USD", { rate := 2, updated_at := some "2024-01-02T00:00:00Z",
                                  source := "ExchangeRate-API" })],
          last_refresh := some "2024-01-02T00:00:00Z" }
        [("BTC_USD", { rate := 60000, updated_at := some "2024-01-02T12:00:00Z",
                       source := "CoinGecko" }),
         ("EUR_USD", { rate := 3, updated_at := some "2024-01-01T12:00:00Z",
                       source := "ExchangeRate-API" }),
         ("ETH_USD", { rate := 3000, updated_at := some "2024-01-02T12:00:00Z",
                       source := "CoinGecko" })]
        "2024-01-02T12:00:00Z").1
        [("BTC_USD", { rate := 60000, updated_at := some "2024-01-02T12:00:00Z",
                       source := "CoinGecko" }),
         ("EUR_USD", { rate := 3, updated_at := some "2024-01-01T12:00:00Z",
                       source := "ExchangeRate-API" }),
         ("ETH_USD", { rate := 3000, updated_at := some "2024-01-02T12:00:00Z",
                       source := "CoinGecko" })]
        "2024-01-03T00:00:00Z").2 = 0 :=
  upsert_newest_wins _ _ "2024-01-02T12:00:00Z" "2024-01-03T00:00:00Z" "BTC_USD" _
    (by decide) (by decide) (by decide) (by decide)


/-- The client loop counts one error per failing client. -/
theorem foldl_process_errors (cls : List Client) (acc : CycleAcc) :
    (cls.foldl processClient acc).errors = acc.errors + (cls.filter clientFailed).length := by
  induction cls generalizing acc with
  | nil => simp
  | cons cl t ih =>
    simp only [List.foldl_cons, List.filter_cons]
    cases hc : cl.fetch_result with
    | ok rates =>
      have h1 : clientFailed cl = false := by simp [clientFailed, hc]
      rw [ih]
      simp [processClient, hc, h1]
    | error e =>
      have h1 : clientFailed cl = true := by simp [clientFailed, hc]
      rw [ih]
      simp only [processClient, hc, h1, if_pos, List.length_cons]
      omega

/-- The merged table built by the client loop is the fold of the merge
of each client. -/
theorem foldl_process_merged (cls : List Client) (acc : CycleAcc) :
    (cls.foldl processClient acc).merged = cls.foldl mergeClient acc.merged := by
  induction cls generalizing acc with
  | nil => rfl
  | cons cl t ih =>
    simp only [List.foldl_cons]
    rw [ih]
    congr 1
    cases hc : cl.fetch_result <;> simp [processClient, mergeClient, hc]

/-- Failing clients contribute nothing to the merged table. -/
theorem foldl_merge_skip_failed (cls : List Client) (m : PairMap) :
    cls.foldl mergeClient m = (cls.filter (fun c => !clientFailed c)).foldl mergeClient m := by
  induction cls generalizing m with
  | nil => rfl
  | cons cl t ih =>
    simp only [List.foldl_cons, List.filter_cons]
    cases hc : cl.fetch_result with
    | ok rates =>
      have h1 : (!clientFailed cl) = true := by simp [clientFailed, hc]
      rw [h1]
      simp only [if_pos, List.foldl_cons]
      exact ih _
    | error e =>
      have h1 : (!clientFailed cl) = false := by simp [clientFailed, hc]
      rw [h1]
      simp only [Bool.false_eq_true, if_false]
      rw [show mergeClient m cl = m by simp [mergeClient, hc]]
      exact ih m

/-- C6: when some selected clients fail with UpstreamError and others
succeed, run_update counts exactly one error per failing client, keeps
going, persists the upsert of the pairs merged from the successful
clients alone, reports updated_count straight from the upsert, and
stamps both the report and the written snapshot with the single cycle
timestamp T computed before any client was called. -/
theorem run_update_partial_failure (cache : Snapshot) (clients : List Client)
    (source : Option String) (T : String)
    (hfail : (selectClients clients source).any clientFailed = true)
    (hok : (selectClients clients source).any (fun c => !clientFailed c) = true) :
    (run_update cache clients source T).report.errors =
      ((selectClients clients source).filter clientFailed).length
    ∧ (run_update cache clients source T).snapshot =
        (upsert_pairs cache
          (mergeRates ((selectClients clients source).filter (fun c => !clientFailed c)))
          T).1
    ∧ (run_update cache clients source T).report.updated =
        (upsert_pairs cache
          (mergeRates ((selectClients clients source).filter (fun c => !clientFailed c)))
          T).2
    ∧ (run_update cache clients source T).report.last_refresh = T
    ∧ (run_update cache clients source T).snapshot.last_refresh = some T := by
  have hmerged : ((selectClients clients source).foldl processClient
      { merged := [], history := [], errors := 0 }).merged =
      mergeRates ((selectClients clients source).filter (fun c => !clientFailed c)) := by
    rw [foldl_process_merged]
    exact foldl_merge_skip_failed _ _
  refine ⟨?_, ?_, ?_, rfl, rfl⟩
  · show ((selectClients clients source).foldl processClient
      { merged := [], history := [], errors := 0 }).errors = _
    rw [foldl_process_errors]
    simp
  · show (upsert_pairs cache ((selectClients clients source).foldl processClient
      { merged := [], history := [], errors := 0 }).merged T).1 = _
    rw [hmerged]
  · show (upsert_pairs cache ((selectClients clients source).foldl processClient
      { merged := [], history := [], errors := 0 }).merged T).2 = _
    rw [hmerged]

/-- Witness for C6: one client raising a network error and one client
returning two pairs, no source filter. -/
theorem run_update_partial_failure_witness :
    (run_update { pairs := [], last_refresh := none } [cgFailClient, erOkClient]
      none "2024-01-02T00:00:00Z").report.errors =
      ([cgFailClient, erOkClient].filter clientFailed).length
    ∧ (run_update { pairs := [], last_refresh := none } [cgFailClient, erOkClient]
        none "2024-01-02T00:00:00Z").snapshot =
      (upsert_pairs { pairs := [], last_refresh := none }
        (mergeRates ([cgFailClient, erOkClient].filter (fun c => !clientFailed c)))
        "2024-01-02T00:00:00Z").1
    ∧ (run_update { pairs := [], last_refresh := none } [cgFailClient, erOkClient]
        none "2024-01-02T00:00:00Z").report.last_refresh = "2024-01-02T00:00:00Z" := by
  have h := run_update_partial_failure { pairs := [], last_refresh := none }
    [cgFailClient, erOkClient] none "2024-01-02T00:00:00Z" (by decide) (by decide)
  exact ⟨h.1, h.2.1, h.2.2.2.1⟩

/-- C10: upsert_pairs leaves every stored pair whose key is not among
the incoming pairs untouched and overwrites last_refresh with the
supplied stamp even when nothing was updated; in particular a
run_update cycle in which every selected client failed still writes the
snapshot back with the fresh cycle timestamp T, updated count 0 and one
counted error per client. -/
theorem upsert_frame_fresh_stamp (cache : Snapshot) (newPairs : List (String × RatePair))
    (lr : String) (k : String) (clients : List Client) (source : Option String) (T : String)
    (hk : k ∉ newPairs.map Prod.fst)
    (hall : (selectClients clients source).all clientFailed = true) :
    lookupKey (upsert_pairs cache newPairs lr).1.pairs k = lookupKey cache.pairs k
    ∧ (upsert_pairs cache newPairs lr).1.last_refresh = some lr
    ∧ (run_update cache clients source T).snapshot =
        { pairs := cache.pairs, last_refresh := some T }
    ∧ (run_update cache clients source T).report.updated = 0
    ∧ (run_update cache clients source T).report.errors =
        (selectClients clients source).length := by
  have hfilter : (selectClients clients source).filter (fun c => !clientFailed c) = [] := by
    rw [List.filter_eq_nil_iff]
    intro c hc
    simp [List.all_eq_true.mp hall c hc]
  have hmerged : ((selectClients clients source).foldl processClient
      { merged := [], history := [], errors := 0 }).merged = [] := by
    rw [foldl_process_merged, foldl_merge_skip_failed, hfilter]
    rfl
  refine ⟨foldl_upsert_lookup_notmem _ _ _ _ hk, rfl, ?_, ?_, ?_⟩
  · show (upsert_pairs cache ((selectClients clients source).foldl processClient
      { merged := [], history := [], errors := 0 }).merged T).1 = _
    rw [hmerged]
    rfl
  · show (upsert_pairs cache ((selectClients clients source).foldl processClient
      { merged := [], history := [], errors := 0 }).merged T).2 = 0
    rw [hmerged]
    rfl
  · show ((selectClients clients source).foldl processClient
      { merged := [], history := [], errors := 0 }).errors = _
    rw [foldl_process_errors]
    rw [List.filter_eq_self.mpr (List.all_eq_true.mp hall)]
    simp

/-- Witness for C10: a cache holding BTC_USD, an incoming update for
ETH_USD only, and a cycle in which the single selected client failed. -/
theorem upsert_frame_fresh_stamp_witness :
    lookupKey (upsert_pairs btcSnapshot [ethIncoming]
        "2024-01-02T00:00:00Z").1.pairs "BTC_USD" =
      lookupKey btcSnapshot.pairs "BTC_USD"
    ∧ (upsert_pairs btcSnapshot [ethIncoming]
        "2024-01-02T00:00:00Z").1.last_refresh = some "2024-01-02T00:00:00Z"
    ∧ (run_update btcSnapshot [cgHttpFailClient]
        none "2024-01-03T00:00:00Z").snapshot =
      { pairs := btcSnapshot.pairs, last_refresh := some "2024-01-03T00:00:00Z" }
    ∧ (run_update btcSnapshot [cgHttpFailClient]
        none "2024-01-03T00:00:00Z").report.updated = 0
    ∧ (run_update btcSnapshot [cgHttpFailClient]
        none "2024-01-03T00:00:00Z").report.errors =
      (selectClients [cgHttpFailClient] none).length :=
  upsert_frame_fresh_stamp btcSnapshot [ethIncoming] "2024-01-02T00:00:00Z" "BTC_USD"
    [cgHttpFailClient] none "2024-01-03T00:00:00Z" (by decide) (by decide)


/-- The fiat loop body leaves keys other than its own target key
unchanged. -/
theorem fiatStep_lookup_ne (base : String) (resp out : List (String × Rat))
    (code tk : String) (h : strUpper code ++ "_" ++ base ≠ tk) :
    lookupKey (fiatStep base resp out code) tk = lookupKey out tk := by
  unfold fiatStep
  by_cases hb : (strUpper code == base) = true
  · simp [hb]
  · have hbf : (strUpper code == base) = false := by simpa using hb
    cases hr : lookupKey resp (strUpper code) with
    | none => simp [hbf, hr]
    | some v =>
      by_cases hv : v = 0
      · simp [hbf, hr, hv]
      · simp [hbf, hr, hv, lookupKey_setKey_ne _ _ _ _ (Ne.symm h)]

/-- The fiat loop leaves a key untouched when no listed currency maps
to it. -/
theorem foldl_fiat_notmem (l : List String) (base : String)
    (resp out : List (String × Rat)) (tk : String)
    (h : ∀ c ∈ l, strUpper c ++ "_" ++ base ≠ tk) :
    lookupKey (l.foldl (fiatStep base resp) out) tk = lookupKey out tk := by
  induction l generalizing out with
  | nil => rfl
  | cons c t ih =>
    simp only [List.foldl_cons]
    rw [ih _ (fun c2 hc2 => h c2 (List.mem_cons_of_mem _ hc2))]
    exact fiatStep_lookup_ne _ _ _ _ _ (h c (List.mem_cons_self _ _))

/-- After the fiat loop, the output at the key of a listed non-base
currency is the inverted response rate, absent when the response rate
is absent or zero. -/
theorem foldl_fiat_mem (l : List String) (base : String)
    (resp out : List (String × Rat)) (code : String)
    (hnd : (l.map (fun c => strUpper c ++ "_" ++ base)).Nodup)
    (hmem : code ∈ l) (hne : strUpper code ≠ base) :
    lookupKey (l.foldl (fiatStep base resp) out) (strUpper code ++ "_" ++ base) =
      match lookupKey resp (strUpper code) with
      | none => lookupKey out (strUpper code ++ "_" ++ base)
      | some v => if v = 0 then lookupKey out (strUpper code ++ "_" ++ base)
                  else some (1 / v) := by
  induction l generalizing out with
  | nil => cases hmem
  | cons c t ih =>
    obtain ⟨h1, h2⟩ : (strUpper c ++ "_" ++ base) ∉
        t.map (fun c2 => strUpper c2 ++ "_" ++ base) ∧
        (t.map (fun c2 => strUpper c2 ++ "_" ++ base)).Nodup := by
      simpa using hnd
    rcases List.mem_cons.mp hmem with he | hmt
    · subst he
      simp only [List.foldl_cons]
      rw [foldl_fiat_notmem _ _ _ _ _
        (fun c2 hc2 he2 => h1 (by rw [← he2]; exact List.mem_map_of_mem _ hc2))]
      have hbf : (strUpper code == base) = false := by simpa using hne
      unfold fiatStep
      cases hr : lookupKey resp (strUpper code) with
      | none => simp [hbf, hr]
      | some v =>
        by_cases hv : v = 0
        · simp [hbf, hr, hv]
        · simp [hbf, hr, hv, lookupKey_setKey_self]
    · have hne2 : strUpper code ++ "_" ++ base ≠ strUpper c ++ "_" ++ base := by
        intro he2
        exact h1 (he2 ▸ List.mem_map_of_mem _ hmt)
      simp only [List.foldl_cons]
      rw [ih _ h2 hmt, fiatStep_lookup_ne _ _ _ _ _ (Ne.symm hne2)]

/-- C9: for every configured fiat currency other than the base whose
rate is present in the provider response, the fiat client outputs the
pair CODE_BASE with the inverted rate 1/v; an absent rate, or a rate of
exactly 0, leaves the pair silently absent from the output instead of
failing the fetch (fetch_rates is total on parsed responses). The Nodup
hypothesis states that the configured currencies map to distinct pair
keys. -/
theorem fiat_rates_inverted (fiat_currencies : List String) (base : String)
    (resp : List (String × Rat)) (code : String)
    (hnd : (fiat_currencies.map (fun c => strUpper c ++ "_" ++ base)).Nodup)
    (hmem : code ∈ fiat_currencies) (hne : strUpper code ≠ base) :
    lookupKey (fetch_rates fiat_currencies base resp) (strUpper code ++ "_" ++ base) =
      (lookupKey resp (strUpper code)).bind
        (fun v => if v = 0 then none else some (1 / v)) := by
  have h := foldl_fiat_mem fiat_currencies base resp [] code hnd hmem hne
  unfold fetch_rates
  cases hr : lookupKey resp (strUpper code) with
  | none =>
    rw [hr] at h
    simpa [lookupKey] using h
  | some v =>
    rw [hr] at h
    by_cases hv : v = 0
    · rw [h]
      simp [lookupKey, hv]
    · rw [h]
      simp [lookupKey, hv]

/-- Witness for C9: base USD, configured currencies EUR and RUB, a
response carrying EUR at 2 and RUB at exactly 0: EUR_USD is output
inverted, RUB_USD is silently omitted. -/
theorem fiat_rates_inverted_witness :
    lookupKey (fetch_rates ["EUR", "RUB"] "USD" [("EUR", 2), ("RUB", 0)]) "EUR_USD" =
      (lookupKey [("EUR", 2), ("RUB", 0)] "EUR").bind
        (fun v => if v = 0 then none else some (1 / v))
    ∧ lookupKey (fetch_rates ["EUR", "RUB"] "USD" [("EUR", 2), ("RUB", 0)]) "RUB_USD" =
      (lookupKey [("EUR", 2), ("RUB", 0)] "RUB").bind
        (fun v => if v = 0 then none else some (1 / v)) :=
  ⟨fiat_rates_inverted ["EUR", "RUB"] "USD" [("EUR", 2), ("RUB", 0)] "EUR"
      (by decide) (by decide) (by decide),
   fiat_rates_inverted ["EUR", "RUB"] "USD" [("EUR", 2), ("RUB", 0)] "RUB"
      (by decide) (by decide) (by decide)⟩


/-- Whenever the stale-warning block would raise, the staleness check
has already flagged the cache stale: the raise condition only fires
inside the needs_update branch, mirroring the nesting of the source. -/
theorem staleWarnRaises_needsUpdate (parseIso : String → Option Int) (now ttl : Int)
    (ratesData : Json) (h : staleWarnRaises parseIso ratesData = true) :
    needsUpdate parseIso now ttl ratesData = true := by
  simp only [staleWarnRaises] at h
  simp only [needsUpdate]
  cases hl : (ratesData.get "last_update").getD .null with
  | str s =>
    rw [hl] at h
    simp only [Json.truthy, Bool.and_eq_true] at h
    obtain ⟨h1, h2⟩ := h
    rw [Option.isNone_iff_eq_none] at h2
    simp [Json.truthy, h1, h2]
  | null =>
    rw [hl] at h
    simp [Json.truthy] at h
  | bool b =>
    rw [hl] at h
    simp [Json.truthy] at h
    simp [Json.truthy, h]
  | num q =>
    rw [hl] at h
    simp [Json.truthy]
  | arr elems =>
    rw [hl] at h
    simp [Json.truthy]
  | obj fields =>
    rw [hl] at h
    simp [Json.truthy]

end ValutaTradeHub
